import Mathlib

/-!
# Verification of the `overseer` watchable key-value store

Shallow embedding of the core of the `overseer` repository:

* the wire codec (`overseer/src/network/{varint,decoder,packet}.rs`),
* the watcher primitive (`overseer-server/src/database/watcher.rs`),
* the in-memory store (`overseer-server/src/database/database.rs`),
* the slotted leaf page (`overseer-server/src/database/store/paging/leaf_page.rs`
  over the projection of `paging/page.rs`),
* the paged file (`overseer-server/src/database/store/file.rs`).

Bytes are modelled as `Nat` (each kept `< 256` by construction), byte
strings as `List Nat`, machine integers as `Nat`/`Int` with explicit
bounds where overflow matters, and fallible code as `Option`/`Except`.
-/

namespace Overseer

/-! ## Variable-width integers (`overseer/src/network/varint.rs`)

`OvrInteger::write` emits unsigned LEB128 (via the `integer_encoding`
crate); signed 64-bit values are zig-zag encoded first.  `OvrInteger::read`
collects bytes up to and including the first byte with the high bit clear
and decodes the group. -/

/-- Unsigned LEB128 encoding, structurally recursive on a fuel that only
needs to dominate the number of 7-bit groups (`n` itself always does). -/
def leb128Aux : Nat → Nat → List Nat
  | 0, n => [n]
  | fuel + 1, n =>
    if n < 128 then [n]
    else (n % 128 + 128) :: leb128Aux fuel (n / 128)

/-- Unsigned LEB128 encoding: 7 bits per byte, least significant group
first, high bit set on every byte except the last. -/
def leb128 (n : Nat) : List Nat := leb128Aux n n

/-- Reader counterpart of `OvrInteger::read`: consume bytes while the high
bit is set, then fold the 7-bit groups (least significant first). Returns
the decoded value and the unread remainder; `none` on truncated input. -/
def readVarint : List Nat → Option (Nat × List Nat)
  | [] => none
  | b :: rest =>
    if b < 128 then some (b, rest)
    else match readVarint rest with
      | some (v, r) => some (b % 128 + v * 128, r)
      | none => none

/-- Zig-zag encoding of a signed 64-bit integer as used by
`integer_encoding` for `i64`: non-negative `n ↦ 2n`, negative `n ↦ -2n-1`. -/
def zigzag (i : Int) : Nat :=
  if 0 ≤ i then (2 * i).toNat else (-2 * i - 1).toNat

/-- Inverse of `zigzag`, as performed by `decode_var` for `i64`. -/
def unzigzag (n : Nat) : Int :=
  if n % 2 = 0 then (n / 2 : Nat) else -((n : Int) + 1) / 2

/-- Number of LEB128 bytes for `n` (`OvrInteger::required_space`). -/
def requiredSpace (n : Nat) : Nat := (leb128 n).length

theorem readVarint_leb128Aux (fuel : Nat) :
    ∀ n, n ≤ fuel → ∀ rest, readVarint (leb128Aux fuel n ++ rest) = some (n, rest) := by
  induction fuel with
  | zero =>
    intro n hn rest
    interval_cases n
    simp [leb128Aux, readVarint]
  | succ f ih =>
    intro n hn rest
    unfold leb128Aux
    by_cases h : n < 128
    · simp [readVarint, h]
    · have hlt : n / 128 < n := Nat.div_lt_self (by omega) (by omega)
      simp only [if_neg h, List.cons_append, readVarint]
      rw [if_neg (by omega), ih (n / 128) (by omega)]
      have h1 : (n % 128 + 128) % 128 + n / 128 * 128 = n := by
        rw [Nat.add_mod_right]
        omega
      simp
      omega

theorem readVarint_leb128 (n : Nat) (rest : List Nat) :
    readVarint (leb128 n ++ rest) = some (n, rest) :=
  readVarint_leb128Aux n n le_rfl rest

theorem unzigzag_zigzag (i : Int) : unzigzag (zigzag i) = i := by
  unfold zigzag unzigzag
  by_cases h : 0 ≤ i
  · rw [if_pos h]
    have h2 : ((2 * i).toNat : Int) = 2 * i := Int.toNat_of_nonneg (by omega)
    have : (2 * i).toNat % 2 = 0 := by omega
    rw [if_pos this]
    omega
  · rw [if_neg h]
    have h2 : ((-2 * i - 1).toNat : Int) = -2 * i - 1 := Int.toNat_of_nonneg (by omega)
    have hodd : (-2 * i - 1).toNat % 2 = 1 := by omega
    rw [if_neg (by omega)]
    omega

/-! ## Data model (`overseer/src/models/{key,value}.rs`)

A `Key` wraps a Rust `String`; we model it by its UTF-8 bytes.  A `Value`
is either a UTF-8 string or a signed 64-bit integer. -/

/-- UTF-8 byte strings, one `Nat < 256` per byte. -/
abbrev Key := List Nat

/-- `Value` from `models/value.rs`: `String` (tag 0) or `Integer` (tag 1);
the string is modelled by its UTF-8 bytes, the integer by an `Int`
(bounded to `i64` in well-formedness conditions). -/
inductive Value
  | string (s : List Nat)
  | integer (i : Int)
deriving DecidableEq, Repr

/-- UTF-8 validity check, as `String::from_utf8` performs on decode:
ASCII, 2-byte leads `C2..DF`, 3-byte leads `E0..EF` (with the overlong
restriction on `E0` and the surrogate restriction on `ED`), 4-byte leads
`F0..F4` (with the overlong restriction on `F0` and the `U+10FFFF` cap on
`F4`); every continuation byte in `80..BF`. -/
def validUtf8 : List Nat → Bool
  | [] => true
  | b :: rest =>
    if b ≤ 0x7F then validUtf8 rest
    else if 0xC2 ≤ b ∧ b ≤ 0xDF then
      match rest with
      | b1 :: r => decide (0x80 ≤ b1 ∧ b1 ≤ 0xBF) && validUtf8 r
      | [] => false
    else if 0xE0 ≤ b ∧ b ≤ 0xEF then
      match rest with
      | b1 :: b2 :: r =>
        let lo1 := if b = 0xE0 then 0xA0 else 0x80
        let hi1 := if b = 0xED then 0x9F else 0xBF
        decide (lo1 ≤ b1 ∧ b1 ≤ hi1) && decide (0x80 ≤ b2 ∧ b2 ≤ 0xBF) && validUtf8 r
      | _ => false
    else if 0xF0 ≤ b ∧ b ≤ 0xF4 then
      match rest with
      | b1 :: b2 :: b3 :: r =>
        let lo1 := if b = 0xF0 then 0x90 else 0x80
        let hi1 := if b = 0xF4 then 0x8F else 0xBF
        decide (lo1 ≤ b1 ∧ b1 ≤ hi1) && decide (0x80 ≤ b2 ∧ b2 ≤ 0xBF) &&
          decide (0x80 ≤ b3 ∧ b3 ≤ 0xBF) && validUtf8 r
      | _ => false
    else false

/-! ## Wire codec (`overseer/src/network/decoder.rs`)

Writers produce the exact byte sequence the Rust encoder emits; readers
consume a byte list and return the decoded entity plus the unread
remainder, `none` standing for any decode error (unknown tag, malformed
bool/option, invalid UTF-8, truncated input). -/

/-- Big-endian bytes of a `u32` (`LocalWriteAsync::write_u32`). -/
def u32be (n : Nat) : List Nat :=
  [n / 2 ^ 24 % 256, n / 2 ^ 16 % 256, n / 2 ^ 8 % 256, n % 256]

/-- `LocalReadAsync::read_u32`: four bytes, big-endian. -/
def readU32 : List Nat → Option (Nat × List Nat)
  | b0 :: b1 :: b2 :: b3 :: rest =>
    some (b0 * 2 ^ 24 + b1 * 2 ^ 16 + b2 * 2 ^ 8 + b3, rest)
  | _ => none

/-- `LocalReadAsync::read_u8`. -/
def readU8 : List Nat → Option (Nat × List Nat)
  | b :: rest => some (b, rest)
  | [] => none

/-- Take exactly `n` bytes (`read_exact`), or fail. -/
def readBytes (n : Nat) (l : List Nat) : Option (List Nat × List Nat) :=
  if n ≤ l.length then some (l.take n, l.drop n) else none

/-- `<&str as OverseerSerde>::serialize`: LEB128 length then the bytes. -/
def writeString (s : List Nat) : List Nat := leb128 s.length ++ s

/-- `<&str as OverseerSerde>::deserialize`: read the length; a zero length
yields the empty string at once; otherwise read that many bytes and insist
they are valid UTF-8. -/
def readString (l : List Nat) : Option (List Nat × List Nat) :=
  match readVarint l with
  | none => none
  | some (len, r) =>
    if len = 0 then some ([], r)
    else match readBytes len r with
      | none => none
      | some (buf, r2) => if validUtf8 buf then some (buf, r2) else none

/-- `bool::serialize`: `0x01` for true, `0x00` for false. -/
def writeBool (b : Bool) : List Nat := if b then [1] else [0]

/-- `bool::deserialize`: anything other than `0`/`1` is an error. -/
def readBool (l : List Nat) : Option (Bool × List Nat) :=
  match readU8 l with
  | none => none
  | some (0, r) => some (false, r)
  | some (1, r) => some (true, r)
  | some (_, _) => none

/-- `Value::serialize`: tag byte then payload (`write_value_string` /
`write_value_signed_integer`). -/
def writeValue : Value → List Nat
  | .string s => 0 :: writeString s
  | .integer i => 1 :: leb128 (zigzag i)

/-- `Value::deserialize`. -/
def readValue (l : List Nat) : Option (Value × List Nat) :=
  match readU8 l with
  | some (0, r) =>
    match readString r with
    | some (s, r2) => some (.string s, r2)
    | none => none
  | some (1, r) =>
    match readVarint r with
    | some (n, r2) => some (.integer (unzigzag n), r2)
    | none => none
  | _ => none

/-- `Option<&Value>::serialize`: `0x00` for none, `0x01` then the value. -/
def writeOptValue : Option Value → List Nat
  | none => [0]
  | some v => 1 :: writeValue v

/-- `Option<&Value>::deserialize`: flag byte `0`/`1`, else an error. -/
def readOptValue (l : List Nat) : Option (Option Value × List Nat) :=
  match readU8 l with
  | some (0, r) => some (none, r)
  | some (1, r) =>
    match readValue r with
    | some (v, r2) => some (some v, r2)
    | none => none
  | _ => none

/-- `Key::serialize` defers to the string serializer. -/
def writeKey (k : Key) : List Nat := writeString k

/-- `Key::deserialize` defers to the string deserializer. -/
def readKey (l : List Nat) : Option (Key × List Nat) := readString l

/-- `WatcherActivity` (`overseer/src/access/watcher.rs`). -/
inductive WatcherActivity
  | kickback
  | lazy
deriving DecidableEq, Repr

/-- `WatcherBehaviour` (`overseer/src/access/watcher.rs`). -/
inductive WatcherBehaviour
  | ordered
  | eager
deriving DecidableEq, Repr

/-- `WatcherActivity::discriminator`. -/
def WatcherActivity.discriminator : WatcherActivity → Nat
  | .kickback => 0
  | .lazy => 1

/-- `WatcherBehaviour::discriminator`. -/
def WatcherBehaviour.discriminator : WatcherBehaviour → Nat
  | .ordered => 0
  | .eager => 1

/-- `WatcherActivity::try_from::<u8>`. -/
def WatcherActivity.tryFrom : Nat → Option WatcherActivity
  | 0 => some .kickback
  | 1 => some .lazy
  | _ => none

/-- `WatcherBehaviour::try_from::<u8>`. -/
def WatcherBehaviour.tryFrom : Nat → Option WatcherBehaviour
  | 0 => some .ordered
  | 1 => some .eager
  | _ => none

/-- `PacketPayload` (`overseer/src/network/packet.rs`); `Cow` borrows are
flattened to owned data. -/
inductive PacketPayload
  | insert (key : Key) (value : Value)
  | get (key : Key)
  | watch (key : Key) (activity : WatcherActivity) (behaviour : WatcherBehaviour)
  | release (key : Key)
  | delete (key : Key)
  | notify (key : Key) (value : Option Value) (more : Bool)
  | ret (key : Key) (value : Option Value)
deriving DecidableEq, Repr

/-- `PacketPayload::discriminator`. -/
def PacketPayload.discriminator : PacketPayload → Nat
  | .insert .. => 0
  | .get .. => 1
  | .watch .. => 2
  | .release .. => 3
  | .delete .. => 4
  | .notify .. => 5
  | .ret .. => 6

/-- A full packet: `PacketId` pair plus payload. -/
structure Packet where
  pid : Nat
  porder : Nat
  payload : PacketPayload
deriving DecidableEq, Repr

/-- `CURRENT_VERSION`. -/
def CURRENT_VERSION : Nat := 0

/-- Payload bytes, per the `write_*_packet` helpers. -/
def writePayload : PacketPayload → List Nat
  | .insert k v => writeKey k ++ writeValue v
  | .get k => writeKey k
  | .watch k a b => writeKey k ++ [a.discriminator, b.discriminator]
  | .release k => writeKey k
  | .delete k => writeKey k
  | .notify k v m => writeKey k ++ writeOptValue v ++ writeBool m
  | .ret k v => writeKey k ++ writeOptValue v

/-- `write_packet`: version byte, `pid`/`porder` as big-endian `u32`,
payload tag, payload. -/
def writePacket (p : Packet) : List Nat :=
  CURRENT_VERSION :: u32be p.pid ++ u32be p.porder ++
    p.payload.discriminator :: writePayload p.payload

/-- `read_packet_v0` body: dispatch on the payload tag. -/
def readPayloadV0 (l : List Nat) : Option (PacketPayload × List Nat) :=
  match readU8 l with
  | none => none
  | some (discrim, r) =>
    match discrim with
    | 0 =>
      match readKey r with
      | some (k, r1) =>
        match readValue r1 with
        | some (v, r2) => some (.insert k v, r2)
        | none => none
      | none => none
    | 1 =>
      match readKey r with
      | some (k, r1) => some (.get k, r1)
      | none => none
    | 2 =>
      match readKey r with
      | some (k, r1) =>
        match readU8 r1 with
        | some (ab, r2) =>
          match WatcherActivity.tryFrom ab with
          | some a =>
            match readU8 r2 with
            | some (bb, r3) =>
              match WatcherBehaviour.tryFrom bb with
              | some b => some (.watch k a b, r3)
              | none => none
            | none => none
          | none => none
        | none => none
      | none => none
    | 3 =>
      match readKey r with
      | some (k, r1) => some (.release k, r1)
      | none => none
    | 4 =>
      match readKey r with
      | some (k, r1) => some (.delete k, r1)
      | none => none
    | 5 =>
      match readKey r with
      | some (k, r1) =>
        match readOptValue r1 with
        | some (v, r2) =>
          match readBool r2 with
          | some (m, r3) => some (.notify k v m, r3)
          | none => none
        | none => none
      | none => none
    | 6 =>
      match readKey r with
      | some (k, r1) =>
        match readOptValue r1 with
        | some (v, r2) => some (.ret k v, r2)
        | none => none
      | none => none
    | _ => none

/-- `read_packet`: version, id pair, then the v0 payload reader (any other
version byte is an error). -/
def readPacket (l : List Nat) : Option (Packet × List Nat) :=
  match readU8 l with
  | none => none
  | some (version, r) =>
    match readU32 r with
    | none => none
    | some (idF, r1) =>
      match readU32 r1 with
      | none => none
      | some (idS, r2) =>
        match version with
        | 0 =>
          match readPayloadV0 r2 with
          | some (pl, r3) => some (⟨idF, idS, pl⟩, r3)
          | none => none
        | _ => none

/-! ### Round-trip of the codec -/

/-- Rust-representable values: a `Value::String` holds a `String`, hence
valid UTF-8; integers are unrestricted here since zig-zag round-trips over
all of `Int` (every `i64` in particular). -/
def Value.wf : Value → Prop
  | .string s => validUtf8 s = true
  | .integer _ => True

/-- Rust-representable optional values. -/
def OptValueWf : Option Value → Prop
  | none => True
  | some v => v.wf

/-- Rust-representable payloads: every key and string is valid UTF-8. -/
def PacketPayload.wf : PacketPayload → Prop
  | .insert k v => validUtf8 k = true ∧ v.wf
  | .get k => validUtf8 k = true
  | .watch k _ _ => validUtf8 k = true
  | .release k => validUtf8 k = true
  | .delete k => validUtf8 k = true
  | .notify k v _ => validUtf8 k = true ∧ OptValueWf v
  | .ret k v => validUtf8 k = true ∧ OptValueWf v

/-- Rust-representable packets: the id pair fits in `u32 × u32`. -/
def Packet.wf (p : Packet) : Prop :=
  p.pid < 2 ^ 32 ∧ p.porder < 2 ^ 32 ∧ p.payload.wf

theorem readU32_u32be (n : Nat) (h : n < 2 ^ 32) (rest : List Nat) :
    readU32 (u32be n ++ rest) = some (n, rest) := by
  simp only [u32be, List.cons_append, List.nil_append, readU32]
  congr 2
  omega

theorem readBytes_exact (s rest : List Nat) :
    readBytes s.length (s ++ rest) = some (s, rest) := by
  simp [readBytes, List.take_left, List.drop_left]

theorem readString_writeString (s : List Nat) (h : validUtf8 s = true)
    (rest : List Nat) : readString (writeString s ++ rest) = some (s, rest) := by
  unfold writeString readString
  rw [List.append_assoc]
  simp only [readVarint_leb128]
  by_cases hs : s = []
  · subst hs; simp
  · rw [if_neg (by simpa using hs)]
    simp only [readBytes_exact, h, if_true]

theorem readBool_writeBool (b : Bool) (rest : List Nat) :
    readBool (writeBool b ++ rest) = some (b, rest) := by
  cases b <;> simp [writeBool, readBool, readU8]

theorem readValue_writeValue (v : Value) (h : v.wf) (rest : List Nat) :
    readValue (writeValue v ++ rest) = some (v, rest) := by
  cases v with
  | string s =>
    simp only [writeValue, List.cons_append, readValue, readU8]
    simp only [readString_writeString s h]
  | integer i =>
    simp only [writeValue, List.cons_append, readValue, readU8]
    simp only [readVarint_leb128, unzigzag_zigzag]

theorem readOptValue_writeOptValue (v : Option Value) (h : OptValueWf v)
    (rest : List Nat) : readOptValue (writeOptValue v ++ rest) = some (v, rest) := by
  cases v with
  | none => simp [writeOptValue, readOptValue, readU8]
  | some v =>
    simp only [writeOptValue, List.cons_append, readOptValue, readU8]
    simp only [readValue_writeValue v h]

theorem readPayloadV0_writePayload (pl : PacketPayload) (h : pl.wf)
    (rest : List Nat) :
    readPayloadV0 (pl.discriminator :: writePayload pl ++ rest) = some (pl, rest) := by
  cases pl with
  | insert k v =>
    obtain ⟨hk, hv⟩ := h
    simp only [PacketPayload.discriminator, writePayload, readPayloadV0, readU8,
      List.cons_append, List.append_assoc, writeKey, readKey,
      readString_writeString k hk, readValue_writeValue v hv]
  | get k =>
    simp only [PacketPayload.discriminator, writePayload, readPayloadV0, readU8,
      List.cons_append, writeKey, readKey, readString_writeString k h]
  | watch k a b =>
    simp only [PacketPayload.discriminator, writePayload, readPayloadV0, readU8,
      List.cons_append, List.append_assoc, writeKey, readKey,
      readString_writeString k h]
    cases a <;> cases b <;>
      simp [readU8, WatcherActivity.tryFrom, WatcherBehaviour.tryFrom,
        WatcherActivity.discriminator, WatcherBehaviour.discriminator]
  | release k =>
    simp only [PacketPayload.discriminator, writePayload, readPayloadV0, readU8,
      List.cons_append, writeKey, readKey, readString_writeString k h]
  | delete k =>
    simp only [PacketPayload.discriminator, writePayload, readPayloadV0, readU8,
      List.cons_append, writeKey, readKey, readString_writeString k h]
  | notify k v m =>
    obtain ⟨hk, hv⟩ := h
    simp only [PacketPayload.discriminator, writePayload, readPayloadV0, readU8,
      List.cons_append, List.append_assoc, writeKey, readKey,
      readString_writeString k hk, readOptValue_writeOptValue v hv,
      readBool_writeBool]
  | ret k v =>
    obtain ⟨hk, hv⟩ := h
    simp only [PacketPayload.discriminator, writePayload, readPayloadV0, readU8,
      List.cons_append, List.append_assoc, writeKey, readKey,
      readString_writeString k hk, readOptValue_writeOptValue v hv]

/-- C7: for every packet `P` — any payload tag among Insert, Get, Watch,
Release, Delete, Notify, Return, any key, value, activity, behaviour,
more-flag, and any packet id representable in Rust (`u32` id pair, UTF-8
keys and strings) — decoding the bytes produced by encoding `P` yields `P`
exactly, with no bytes left over. -/
theorem decode_encode_roundtrip_C7 (p : Packet) (h : p.wf) :
    readPacket (writePacket p) = some (p, []) := by
  obtain ⟨h1, h2, h3⟩ := h
  have hsplit : writePacket p =
      CURRENT_VERSION :: (u32be p.pid ++ (u32be p.porder ++
        (p.payload.discriminator :: writePayload p.payload ++ []))) := by
    simp [writePacket]
  rw [hsplit]
  unfold readPacket CURRENT_VERSION
  simp only [readU8, readU32_u32be p.pid h1, readU32_u32be p.porder h2,
    readPayloadV0_writePayload p.payload h3]

/-- Witness for C7 at a concrete packet: a `Notify` for key `"hi"`
carrying `Some(Integer(-5))` with `more = true` and id `(7, 0)`. -/
theorem decode_encode_roundtrip_C7_witness :
    readPacket (writePacket ⟨7, 0, .notify [104, 105] (some (.integer (-5))) true⟩) =
      some (⟨7, 0, .notify [104, 105] (some (.integer (-5))) true⟩, []) :=
  decode_encode_roundtrip_C7 _ ⟨by decide, by decide, by decide, trivial⟩

/-! ## The watcher primitive (`overseer-server/src/database/watcher.rs`)

`WatcherInner` holds the mode-dependent holding state, a `killed` flag and
a `ready` flag (the registered `LocalWaker` only transfers control to the
scheduler and carries no state of its own, so it is not part of the model).
The single-threaded server interleaves producer and consumer steps, so the
state passes explicitly. -/

/-- `HoldingInner`: an `Ordered` watcher queues every delivery, an `Eager`
watcher keeps a single most-recent slot (where `none` is both "empty" and
"a delivered null" — the Rust slot is one `Option<Arc<Value>>`). -/
inductive Holding
  | ordered (q : List (Option Value))
  | eager (slot : Option Value)
deriving DecidableEq, Repr

/-- `WatcherInner` without the waker registration. -/
structure WatcherState where
  holding : Holding
  killed : Bool
  ready : Bool
deriving DecidableEq, Repr

/-- `Watcher::new`: fresh state for the requested behaviour. -/
def WatcherState.new : WatcherBehaviour → WatcherState
  | .ordered => ⟨.ordered [], false, false⟩
  | .eager => ⟨.eager none, false, false⟩

/-- `Watcher::<WatchServer>::wake_without_notify`: deposit according to
mode, touching neither `ready` nor `killed`. -/
def wakeWithoutNotify (w : WatcherState) (v : Option Value) : WatcherState :=
  match w.holding with
  | .eager _ => { w with holding := .eager v }
  | .ordered q => { w with holding := .ordered (q ++ [v]) }

/-- `WatcherInner::wake`: set `ready` and fire any registered waker (the
waker itself is scheduler bookkeeping, not state). -/
def signalWatcher (w : WatcherState) : WatcherState :=
  { w with ready := true }

/-- `Watcher::<WatchServer>::wake`: deposit, then signal. -/
def wakeW (w : WatcherState) (v : Option Value) : WatcherState :=
  signalWatcher (wakeWithoutNotify w v)

/-- `Watcher::<WatchServer>::kill`: set `killed`, then `wake(None)`. -/
def killW (w : WatcherState) : WatcherState :=
  wakeW { w with killed := true } none

/-- `Watcher::<WatchClient>::wait`.  Returns `none` when the call would
suspend with no pending signal; otherwise the delivered value and the
successor state.  Awaiting consumes the `ready` flag (the future's `poll`
clears it); popping a pending delivery does not. -/
def waitW (w : WatcherState) : Option (Option Value × WatcherState) :=
  match w.holding with
  | .eager (some v) => some (some v, { w with holding := .eager none })
  | .eager none =>
    if w.ready then some (none, { w with holding := .eager none, ready := false })
    else none
  | .ordered (h :: t) => some (h, { w with holding := .ordered t })
  | .ordered [] =>
    if w.ready then some (none, { w with holding := .ordered [], ready := false })
    else none

/-- `Watcher::<WatchClient>::force_recv`: non-blocking take; the `?` on an
empty ordered queue returns null. -/
def forceRecvW (w : WatcherState) : Option Value × WatcherState :=
  match w.holding with
  | .eager slot => (slot, { w with holding := .eager none })
  | .ordered [] => (none, w)
  | .ordered (h :: t) => (h, { w with holding := .ordered t })

/-! ### Coordinated group notify and its event trace

`notify_coordinated` runs two loops: first `wake_without_notify` on every
watcher (collecting the inner `Rc`s), then `wake` on each collected inner.
Watchers carry a `Nat` label (the database uses the client id) so that
events name their target. -/

/-- Events observable while a notification executes. -/
inductive WEvent
  | update
  | deposit (c : Nat)
  | signal (c : Nat)
deriving DecidableEq, Repr

/-- `Watcher::<WatchServer>::notify_coordinated`: the deposit loop runs to
completion before the signal loop starts; the trace records that order. -/
def notifyCoordinated (ws : List (Nat × WatcherState)) (v : Option Value) :
    List (Nat × WatcherState) × List WEvent :=
  let deposited := ws.map (fun p => (p.1, wakeWithoutNotify p.2 v))
  let signaled := deposited.map (fun p => (p.1, signalWatcher p.2))
  (signaled, ws.map (fun p => WEvent.deposit p.1) ++ ws.map (fun p => WEvent.signal p.1))

/-- Trace of `notify_coordinated` alone. -/
def ncTrace (ws : List (Nat × WatcherState)) : List WEvent :=
  (notifyCoordinated ws none).2

/-- A watcher "holds" a deposited value when the value sits in its holding
state: the eager slot equals it, or it is somewhere in the ordered queue. -/
def holdsW (w : WatcherState) (v : Option Value) : Prop :=
  match w.holding with
  | .eager slot => slot = v
  | .ordered q => v ∈ q

/-- Fallback watcher for positional lookups. -/
def wDefault : WatcherState := ⟨.ordered [], false, false⟩

theorem ncTrace_eq (ws : List (Nat × WatcherState)) (v : Option Value) :
    (notifyCoordinated ws v).2 =
      ws.map (fun p => WEvent.deposit p.1) ++ ws.map (fun p => WEvent.signal p.1) := rfl

/-- Deposits never occur among the signal events of the trace. -/
theorem signal_position_ge (ws : List (Nat × WatcherState)) (v : Option Value)
    (k : Nat) (i : Nat)
    (hk : (notifyCoordinated ws v).2.get? k = some (.signal i)) : ws.length ≤ k := by
  by_contra hlt
  push_neg at hlt
  rw [ncTrace_eq] at hk
  rw [List.get?_append (by simpa using hlt)] at hk
  rw [List.get?_map] at hk
  cases hg : (ws.get? k) with
  | none => rw [hg] at hk; simp at hk
  | some p => rw [hg] at hk; simp at hk

/-- C1: in `notify_coordinated(watchers, value)` every deposit event
precedes every signal event, and at the moment any watcher is signaled
(position `k` of the trace), every watcher in the group has already had
`value` deposited into its holding state — its deposit event lies in the
prefix before `k`, its post-deposit state holds `value` while its `ready`
flag is still untouched, and the subsequent signals change no holding
state. -/
theorem notify_coordinated_two_phase_C1 (ws : List (Nat × WatcherState))
    (v : Option Value) (k : Nat) (i : Nat)
    (hk : (notifyCoordinated ws v).2.get? k = some (.signal i))
    (j : Nat) (hj : j < ws.length) :
    WEvent.deposit (ws.getD j (0, wDefault)).1 ∈ (notifyCoordinated ws v).2.take k ∧
    holdsW (wakeWithoutNotify (ws.getD j (0, wDefault)).2 v) v ∧
    (wakeWithoutNotify (ws.getD j (0, wDefault)).2 v).ready =
      (ws.getD j (0, wDefault)).2.ready ∧
    ((notifyCoordinated ws v).1.getD j (0, wDefault)).2.holding =
      (wakeWithoutNotify (ws.getD j (0, wDefault)).2 v).holding := by
  have hkn := signal_position_ge ws v k i hk
  refine ⟨?_, ?_, ?_, ?_⟩
  · rw [ncTrace_eq, List.take_append_eq_append_take,
      List.take_of_length_le (by simpa using hkn)]
    apply List.mem_append_left
    have : ws.getD j (0, wDefault) ∈ ws := by
      rw [List.getD_eq_getElem _ _ hj]
      exact List.getElem_mem hj
    exact List.mem_map_of_mem _ this
  · unfold wakeWithoutNotify holdsW
    cases hh : (ws.getD j (0, wDefault)).2.holding <;> simp
  · unfold wakeWithoutNotify
    cases hh : (ws.getD j (0, wDefault)).2.holding <;> simp
  · unfold notifyCoordinated
    simp only
    rw [List.getD_eq_get?, List.getD_eq_get?, List.get?_map, List.get?_map]
    cases hg : ws.get? j with
    | none => exact absurd (List.get?_eq_none.mp hg) (by omega)
    | some p => simp [hg, signalWatcher]

/-- Witness for C1: one ordered watcher, value `Some(Integer(5))`, the
signal event at trace position 1. -/
theorem notify_coordinated_two_phase_C1_witness :
    WEvent.deposit ((([(3, wDefault)] : List (Nat × WatcherState)).getD 0 (0, wDefault)).1) ∈
      (notifyCoordinated [(3, wDefault)] (some (.integer 5))).2.take 1 ∧
    holdsW (wakeWithoutNotify (([(3, wDefault)] : List (Nat × WatcherState)).getD 0 (0, wDefault)).2
      (some (.integer 5))) (some (.integer 5)) ∧
    (wakeWithoutNotify (([(3, wDefault)] : List (Nat × WatcherState)).getD 0 (0, wDefault)).2
      (some (.integer 5))).ready =
      (([(3, wDefault)] : List (Nat × WatcherState)).getD 0 (0, wDefault)).2.ready ∧
    ((notifyCoordinated [(3, wDefault)] (some (.integer 5))).1.getD 0 (0, wDefault)).2.holding =
      (wakeWithoutNotify (([(3, wDefault)] : List (Nat × WatcherState)).getD 0 (0, wDefault)).2
        (some (.integer 5))).holding :=
  notify_coordinated_two_phase_C1 [(3, wDefault)] (some (.integer 5)) 1 3
    (by decide) 0 (by decide)

/-! ### Ordered delivery (C2) and kill semantics (C10) -/

/-- A producer burst: `wake(v₁), …, wake(vₙ)` in order. -/
def wakeSeq (w : WatcherState) (vs : List (Option Value)) : WatcherState :=
  vs.foldl wakeW w

/-- `n` consecutive consumer `wait()` calls, collecting the results (the
iteration stops early only if a call would suspend forever). -/
def waitsN : Nat → WatcherState → List (Option Value) × WatcherState
  | 0, w => ([], w)
  | n + 1, w =>
    match waitW w with
    | none => ([], w)
    | some (r, w') =>
      let (rs, w'') := waitsN n w'
      (r :: rs, w'')

theorem wakeSeq_ordered (q : List (Option Value)) (k r : Bool)
    (vs : List (Option Value)) :
    wakeSeq ⟨.ordered q, k, r⟩ vs =
      ⟨.ordered (q ++ vs), k, if vs = [] then r else true⟩ := by
  induction vs generalizing q r with
  | nil => simp [wakeSeq]
  | cons v t ih =>
    show wakeSeq ⟨.ordered (q ++ [v]), k, true⟩ t = _
    rw [ih]
    simp

theorem waitsN_ordered (q : List (Option Value)) (k r : Bool) :
    waitsN q.length ⟨.ordered q, k, r⟩ = (q, ⟨.ordered [], k, r⟩) := by
  induction q with
  | nil => simp [waitsN]
  | cons h t ih => simp [waitsN, waitW, ih]

/-- C2: for an `Ordered` watcher, after the producer calls
`wake(v₁), …, wake(vₙ)`, the first `n` consumer `wait()` calls return
exactly `v₁, …, vₙ` in that order — nothing omitted, duplicated or
reordered. -/
theorem ordered_watcher_fifo_C2 (vs : List (Option Value)) :
    (waitsN vs.length (wakeSeq (WatcherState.new .ordered) vs)).1 = vs := by
  rw [show WatcherState.new .ordered = ⟨.ordered [], false, false⟩ from rfl,
    wakeSeq_ordered]
  rw [List.nil_append]
  rw [waitsN_ordered]

/-- C10: killing an `Eager` watcher overwrites the single holding slot
with null — a value deposited by an earlier `wake` and not yet taken is
lost — so the next `wait()` and `force_recv()` both return null; killing
an `Ordered` watcher instead appends null behind the undelivered queue
entries. -/
theorem kill_semantics_C10 :
    (∀ (slot : Option Value) (k r : Bool),
      (killW ⟨.eager slot, k, r⟩).holding = .eager none ∧
      waitW (killW ⟨.eager slot, k, r⟩) = some (none, ⟨.eager none, true, false⟩) ∧
      (forceRecvW (killW ⟨.eager slot, k, r⟩)).1 = none ∧
      (killW ⟨.eager slot, k, r⟩).killed = true) ∧
    (∀ (q : List (Option Value)) (k r : Bool),
      (killW ⟨.ordered q, k, r⟩).holding = .ordered (q ++ [none]) ∧
      (killW ⟨.ordered q, k, r⟩).killed = true) := by
  constructor
  · intro slot k r
    refine ⟨rfl, rfl, rfl, rfl⟩
  · intro q k r
    exact ⟨rfl, rfl⟩

/-! ## The in-memory store (`overseer-server/src/database/database.rs`)

`Database` holds `records : ShardMap<Key, Record>` and
`watchers : ShardMap<Key, Arc<RwLock<HashMap<ClientId, Watcher<WatchServer>>>>>`.
We model the outer maps as functions and the inner `HashMap` as an
association list in iteration order, whose `insert` replaces the value of
an existing key and otherwise appends.  Mutating operations additionally
produce the `WEvent` trace of their visible steps. -/

/-- `ClientId` (`overseer-server/src/net`): an opaque 64-bit id. -/
abbrev ClientId := Nat

/-- `HashMap::insert`: replace the value at an existing key, else add the
binding. -/
def aInsert (m : List (ClientId × WatcherState)) (c : ClientId)
    (w : WatcherState) : List (ClientId × WatcherState) :=
  if m.any (fun p => p.1 = c) then
    m.map (fun p => if p.1 = c then (c, w) else p)
  else m ++ [(c, w)]

/-- `HashMap::get`. -/
def aLookup (m : List (ClientId × WatcherState)) (c : ClientId) :
    Option WatcherState :=
  (m.find? (fun p => p.1 = c)).map Prod.snd

/-- The `Database` state. -/
structure Database where
  records : Key → Option Value
  watchers : Key → Option (List (ClientId × WatcherState))

/-- `Database::new`. -/
def Database.empty : Database := ⟨fun _ => none, fun _ => none⟩

/-- `Database::get`. -/
def Database.get (db : Database) (k : Key) : Option Value := db.records k

/-- `Database::notify`: `false` and no events when the key has no watcher
map; otherwise `wake(value)` on each watcher of the map in turn — each
wake deposits and immediately signals its watcher before the loop moves
on. -/
def Database.notify (db : Database) (k : Key) (v : Option Value) :
    Database × List WEvent × Bool :=
  match db.watchers k with
  | none => (db, [], false)
  | some m =>
    ({ db with watchers := fun k' =>
        if k' = k then some (m.map (fun p => (p.1, wakeW p.2 v))) else db.watchers k' },
      m.flatMap (fun p => [WEvent.deposit p.1, WEvent.signal p.1]),
      true)

/-- `Database::insert`: replace the binding in `records`, then `notify`
with `Some(value)`.  The trace places the records update strictly before
every notification event. -/
def Database.insert (db : Database) (k : Key) (v : Value) :
    Database × List WEvent :=
  let db1 : Database :=
    { db with records := fun k' => if k' = k then some v else db.records k' }
  let (db2, evs, _) := db1.notify k (some v)
  (db2, WEvent.update :: evs)

/-- `Database::subscribe`: build a fresh watcher pair, `wake` the producer
with the current value on `Kickback`, then store the producer under
`(key, client)` — creating the inner map if absent, and otherwise
`HashMap::insert`-ing into it.  Returns the new database and the consumer
handle (which shares the producer's inner state). -/
def Database.subscribe (db : Database) (k : Key) (c : ClientId)
    (behaviour : WatcherBehaviour) (activity : WatcherActivity) :
    Database × WatcherState :=
  let server := WatcherState.new behaviour
  let server :=
    match activity with
    | .kickback => wakeW server (db.get k)
    | .lazy => server
  match db.watchers k with
  | none =>
    ({ db with watchers := fun k' =>
        if k' = k then some [(c, server)] else db.watchers k' }, server)
  | some m =>
    ({ db with watchers := fun k' =>
        if k' = k then some (aInsert m c server) else db.watchers k' }, server)

/-! ### C3: insert notifies through a per-watcher `wake` loop -/

/-- The two-watcher database used to separate `Database::notify` from
`notify_coordinated`: key `[107]`, clients `0` and `1`, both fresh eager
watchers. -/
def dbTwoWatchers : Database :=
  { records := fun _ => none,
    watchers := fun k' =>
      if k' = [107] then some [(0, WatcherState.new .eager), (1, WatcherState.new .eager)]
      else none }

/-- Counterexample to C3 as stated: with two subscribers on the key,
`Database::insert` produces the event order
`update, deposit 0, signal 0, deposit 1, signal 1` — watcher 0 is signaled
before watcher 1's deposit — which differs from the records-update
followed by `notify_coordinated`'s two-phase order
`update, deposit 0, deposit 1, signal 0, signal 1`.  `insert` does not
notify by calling `notify_coordinated`. -/
theorem insert_not_notify_coordinated_C3 :
    (Database.insert dbTwoWatchers [107] (.integer 9)).2 =
      [WEvent.update, .deposit 0, .signal 0, .deposit 1, .signal 1] ∧
    (Database.insert dbTwoWatchers [107] (.integer 9)).2 ≠
      WEvent.update ::
        ncTrace [(0, WatcherState.new .eager), (1, WatcherState.new .eager)] := by
  constructor
  · rfl
  · decide

/-- C3 as amended: `insert(k, v)` first replaces the binding of `k` in
`records` and then notifies every subscriber of `k` with `Some(v)` through
`notify`, which wakes each watcher in turn — depositing and signaling
per watcher rather than using the two-phase `notify_coordinated`.  The
records update is sequenced strictly before every notification event, the
notification is a no-op when `k` has no subscribers, and each subscriber's
final state is its old state woken with `Some(v)`. -/
theorem insert_updates_then_wakes_C3 (db : Database) (k : Key) (v : Value) :
    (Database.insert db k v).2 =
      WEvent.update ::
        ((db.watchers k).getD []).flatMap
          (fun p => [WEvent.deposit p.1, WEvent.signal p.1]) ∧
    (Database.insert db k v).1.records k = some v ∧
    (∀ k', k' ≠ k → (Database.insert db k v).1.records k' = db.records k') ∧
    (Database.insert db k v).1.watchers k =
      (db.watchers k).map (List.map (fun p => (p.1, wakeW p.2 (some v)))) := by
  unfold Database.insert Database.notify
  cases hw : db.watchers k with
  | none =>
    refine ⟨by simp [hw], by simp [hw], fun k' hk' => by simp [hw, if_neg hk'],
      by simp [hw]⟩
  | some m =>
    refine ⟨by simp [hw], by simp [hw], fun k' hk' => by simp [hw, if_neg hk'],
      by simp [hw]⟩

/-- Witness for C3 (amended) at the two-watcher database. -/
theorem insert_updates_then_wakes_C3_witness :
    (Database.insert dbTwoWatchers [107] (.integer 9)).1.records [106] =
      dbTwoWatchers.records [106] :=
  (insert_updates_then_wakes_C3 dbTwoWatchers [107] (.integer 9)).2.2.1 [106]
    (by decide)

/-! ### C4: a second subscribe for the same `(key, client)` replaces -/

/-- The database after subscribing client 0 to key `[104]` twice — first
`Ordered`, then `Eager`, both `Lazy`. -/
def dbDoubleSubscribe : Database × WatcherState :=
  Database.subscribe
    (Database.subscribe Database.empty [104] 0 .ordered .lazy).1
    [104] 0 .eager .lazy

/-- Counterexample to C4 as stated: the second `subscribe([104], 0, …)`
call is not rejected — it succeeds and replaces the stored producer
handle.  After it, the subscription index holds the second (eager) watcher
where the first (ordered) one used to be. -/
theorem subscribe_replaces_C4_counterexample :
    aLookup ((dbDoubleSubscribe.1.watchers [104]).getD []) 0 =
      some (WatcherState.new .eager) ∧
    WatcherState.new .eager ≠ WatcherState.new .ordered ∧
    ((dbDoubleSubscribe.1.watchers [104]).getD []).length = 1 := by
  refine ⟨?_, by decide, ?_⟩ <;> rfl

theorem aLookup_replace (m : List (ClientId × WatcherState)) (c : ClientId)
    (w : WatcherState) (h : m.any (fun p => p.1 = c) = true) :
    aLookup (m.map (fun p => if p.1 = c then (c, w) else p)) c = some w := by
  induction m with
  | nil => simp at h
  | cons q t ih =>
    by_cases hq : q.1 = c
    · simp [aLookup, List.find?_cons, hq]
    · simp only [List.any_cons, Bool.or_eq_true, decide_eq_true_eq] at h
      rcases h with h | h
      · exact absurd h hq
      · simp only [List.map_cons, if_neg hq]
        unfold aLookup at ih ⊢
        rw [List.find?_cons_of_neg _ (by simpa using hq)]
        exact ih (by simpa using h)

theorem aLookup_append_single (m : List (ClientId × WatcherState)) (c : ClientId)
    (w : WatcherState) (h : ∀ p ∈ m, p.1 ≠ c) :
    aLookup (m ++ [(c, w)]) c = some w := by
  induction m with
  | nil => simp [aLookup]
  | cons q t ih =>
    unfold aLookup at ih ⊢
    rw [List.cons_append, List.find?_cons_of_neg _ (by simpa using h q (by simp))]
    exact ih (fun p hp => h p (by simp [hp]))

theorem aLookup_aInsert (m : List (ClientId × WatcherState)) (c : ClientId)
    (w : WatcherState) : aLookup (aInsert m c w) c = some w := by
  unfold aInsert
  by_cases hmem : m.any (fun p => p.1 = c)
  · rw [if_pos hmem]
    exact aLookup_replace m c w hmem
  · rw [if_neg hmem]
    apply aLookup_append_single
    intro p hp hpc
    exact hmem (List.any_eq_true.mpr ⟨p, hp, by simpa using hpc⟩)

theorem aInsert_keys (m : List (ClientId × WatcherState)) (c : ClientId)
    (w : WatcherState) :
    (aInsert m c w).map Prod.fst =
      if m.any (fun p => p.1 = c) then m.map Prod.fst
      else m.map Prod.fst ++ [c] := by
  unfold aInsert
  by_cases hmem : m.any (fun p => p.1 = c)
  · rw [if_pos hmem, if_pos hmem, List.map_map]
    apply List.map_congr_left
    intro p _
    by_cases hq : p.1 = c <;> simp [hq]
  · rw [if_neg hmem, if_neg hmem]
    simp

theorem aInsert_keys_nodup (m : List (ClientId × WatcherState)) (c : ClientId)
    (w : WatcherState) (h : List.Nodup (m.map Prod.fst)) :
    List.Nodup ((aInsert m c w).map Prod.fst) := by
  rw [aInsert_keys]
  by_cases hmem : m.any (fun p => p.1 = c)
  · rwa [if_pos hmem]
  · rw [if_neg hmem, List.nodup_append]
    refine ⟨h, by simp, ?_⟩
    intro a ha hb
    rw [List.mem_singleton] at hb
    subst hb
    obtain ⟨p, hp, hpc⟩ := List.mem_map.mp ha
    exact hmem (List.any_eq_true.mpr ⟨p, hp, by simpa using hpc⟩)

/-- C4 as amended: a second `subscribe(k, c, …)` replaces the existing
producer handle for `(k, c)` rather than rejecting the call; the
subscription index still holds at most one subscription per
`(key, client)` pair — after any `subscribe`, looking up `(k, c)` yields
the just-created producer, and client ids remain pairwise distinct in the
inner map whenever they were distinct before. -/
theorem subscribe_replaces_C4 (db : Database) (k : Key) (c : ClientId)
    (behaviour : WatcherBehaviour) (activity : WatcherActivity)
    (hnodup : List.Nodup (((db.watchers k).getD []).map Prod.fst)) :
    aLookup (((db.subscribe k c behaviour activity).1.watchers k).getD []) c =
      some (db.subscribe k c behaviour activity).2 ∧
    List.Nodup
      ((((db.subscribe k c behaviour activity).1.watchers k).getD []).map
        Prod.fst) := by
  unfold Database.subscribe
  cases hw : db.watchers k with
  | none =>
    simp only [hw]
    cases activity <;> simp [aLookup]
  | some m =>
    rw [hw] at hnodup
    simp only [hw, Option.getD_some] at hnodup ⊢
    cases activity <;>
      exact ⟨by simp [aLookup_aInsert], by
        simpa using aInsert_keys_nodup m c _ (by simpa using hnodup)⟩

/-- Witness for C4 (amended): subscribing client 0 to key `[104]` on the
empty database. -/
theorem subscribe_replaces_C4_witness :
    aLookup (((Database.empty.subscribe [104] 0 .ordered .lazy).1.watchers
        [104]).getD []) 0 =
      some (Database.empty.subscribe [104] 0 .ordered .lazy).2 ∧
    List.Nodup
      ((((Database.empty.subscribe [104] 0 .ordered .lazy).1.watchers
        [104]).getD []).map Prod.fst) :=
  subscribe_replaces_C4 Database.empty [104] 0 .ordered .lazy (by decide)

/-! ## The slotted leaf page
(`overseer-server/src/database/store/paging/leaf_page.rs`)

A leaf page is a typed projection over the page body: `Projection<Leaf>`
indexes into `backing[PAGE_HEADER_RESERVED_BYTES..]`, so the body memory
starts at projection offset 0 and has `capacity = size − 5` bytes.  The
body is modelled as a total function `Nat → Nat`; all in-range `u16` field
reads/writes are little-endian.  The chain-walking recursions of the
source are not structurally terminating, so they take a fuel argument; an
exhausted fuel (`none` at the outer `Option`) models a non-terminating or
aborting execution and is propagated by every caller. -/

/-- Page body memory: byte value at each offset. -/
abbrev Mem := Nat → Nat

/-- `PAGE_SIZE` (`store/file.rs`). -/
def PAGE_SIZE : Nat := 16384

/-- `RESERVED_HEADER_SIZE` (`store/file.rs`). -/
def RESERVED_HEADER_SIZE : Nat := 512

/-- `PAGE_HEADER_RESERVED_BYTES = 1 + 4` (`store/file.rs`). -/
def PAGE_HEADER_RESERVED_BYTES : Nat := 5

/-- `MAGIC_BYTE` (`store/file.rs`). -/
def MAGIC_BYTE : Nat := 0x83

/-- `FRAGMENTATION_SIZE` (`leaf_page.rs`). -/
def FRAGMENTATION_SIZE : Nat := 4

/-- `Projection::capacity`: `size − PAGE_HEADER_RESERVED_BYTES` for a
full-size page. -/
def leafCapacity : Nat := PAGE_SIZE - PAGE_HEADER_RESERVED_BYTES

/-- `Projection::<Leaf>::header_size`. -/
def leafHeaderSize : Nat := 10

/-- Little-endian `u16` read at `p`. -/
def readU16 (m : Mem) (p : Nat) : Nat := m p + 256 * m (p + 1)

/-- Little-endian `u16` write at `p`. -/
def writeU16 (m : Mem) (p x : Nat) : Mem :=
  fun i => if i = p then x % 256 else if i = p + 1 then x / 256 % 256 else m i

/-- `copy_from_slice` at offset `p`. -/
def writeBytes (m : Mem) (p : Nat) (bs : List Nat) : Mem :=
  fun i => if p ≤ i ∧ i < p + bs.length then bs.getD (i - p) 0 else m i

/-- `fill(0)` over `[a, b)`. -/
def fillZero (m : Mem) (a b : Nat) : Mem :=
  fun i => if a ≤ i ∧ i < b then 0 else m i

/-- `rotate_left(2)` over the slice `[a, b)`. -/
def rotateLeft2 (m : Mem) (a b : Nat) : Mem :=
  fun i => if a ≤ i ∧ i < b then m (a + (i - a + 2) % (b - a)) else m i

/-- `get_cell_count`. -/
def getCellCount (m : Mem) : Nat := readU16 m 0

/-- `get_used_space`. -/
def getUsedSpace (m : Mem) : Nat := readU16 m 2

/-- `get_free_space`: `capacity − header_size − used_space` — the
fragmented counter plays no part. -/
def getFreeSpace (m : Mem) : Nat := leafCapacity - leafHeaderSize - getUsedSpace m

/-- `get_free_block_ptr`. -/
def getFreeBlockPtr (m : Mem) : Nat := readU16 m 4

/-- `get_lead_offset`. -/
def getLeadOffset (m : Mem) : Nat := readU16 m 6

/-- `get_fragmented`. -/
def getFragmented (m : Mem) : Nat := readU16 m 8

/-- `calculate_offset_index`. -/
def calculateOffsetIndex (index : Nat) : Nat := leafHeaderSize + index * 2

/-- `get_offset`. -/
def getOffset (m : Mem) (index : Nat) : Nat := readU16 m (calculateOffsetIndex index)

/-- `set_cell_count`. -/
def setCellCount (m : Mem) (x : Nat) : Mem := writeU16 m 0 x

/-- `set_used_space`. -/
def setUsedSpace (m : Mem) (x : Nat) : Mem := writeU16 m 2 x

/-- `set_free_ptr`. -/
def setFreePtr (m : Mem) (x : Nat) : Mem := writeU16 m 4 x

/-- `set_lead_offset`. -/
def setLeadOffset (m : Mem) (x : Nat) : Mem := writeU16 m 6 x

/-- `set_fragmented`. -/
def setFragmented (m : Mem) (x : Nat) : Mem := writeU16 m 8 x

/-- `PageError` (`paging/error.rs`), the variants the modelled operations
produce. -/
inductive PageError
  | leafPageFull
  | badAllocation
  | noRecordFound
deriving DecidableEq, Repr

/-- A free block as read from the chain (`FreeBlock` in `leaf_page.rs`);
`position` is where it sits, and is neither written nor read. -/
structure FreeBlock where
  position : Nat
  next : Nat
  offset : Nat
  size : Nat
deriving DecidableEq, Repr

/-- `FreeBlock::size()`: `2 + 2 + 2`. -/
def FreeBlock.byteSize : Nat := 6

/-- `FreeBlock::read` — three little-endian `u16`s at `position` (the
slice conversion cannot fail for an in-page position over a total
memory). -/
def FreeBlock.read (m : Mem) (position : Nat) : FreeBlock :=
  ⟨position, readU16 m position, readU16 m (position + 2), readU16 m (position + 4)⟩

/-- `FreeBlock::write`. -/
def FreeBlock.write (m : Mem) (start next offset size : Nat) : Mem :=
  writeU16 (writeU16 (writeU16 m start next) (start + 2) offset) (start + 4) size

/-- `Allocation` (`leaf_page.rs`). -/
structure Allocation where
  location : Nat
  freeBlock : Option FreeBlock
  size : Nat
  isLeadAllocation : Bool
deriving DecidableEq, Repr

/-- `try_alloc_lead`: place the record at
`capacity − lead_offset − size` unless that collides with the header plus
the growing cell-offset directory. -/
def tryAllocLead (m : Mem) (size : Nat) : Option Allocation :=
  let leadPtr := leafCapacity - getLeadOffset m - size
  let offsetSize := leafHeaderSize + 2 * getCellCount m
  if leadPtr ≤ offsetSize then none
  else some ⟨leadPtr, none, size, true⟩

/-- `descend_free_chain`, verbatim including its recursive call: when the
block at `pointer` neither fits nor ends the chain, the source recurses
with the *same* `pointer` (not `block.next`).  The outer `Option` is fuel
exhaustion (non-termination). -/
def descendFreeChain (m : Mem) : Nat → Nat → Nat → Option (Option Allocation)
  | 0, _, _ => none
  | fuel + 1, pointer, size =>
    let block := FreeBlock.read m pointer
    if block.size ≥ size ∧ block.offset ≠ 0 then
      some (some ⟨block.offset, some block, size, false⟩)
    else if block.next = 0 then some none
    else descendFreeChain m fuel pointer size

/-- `find_free_slot`. -/
def findFreeSlot (m : Mem) (fuel size : Nat) : Option (Option Allocation) :=
  let star := getFreeBlockPtr m
  if star = 0 then some none
  else descendFreeChain m fuel star size

/-- `can_allocate`: free-chain first, lead pointer as fallback. -/
def canAllocate (m : Mem) (fuel size : Nat) : Option (Option Allocation) :=
  if size ≥ getFreeSpace m then some none
  else match findFreeSlot m fuel size with
    | none => none
    | some (some alloc) => some (some alloc)
    | some none => some (tryAllocLead m size)

/-- `adjust_free_block`: a remainder of at most `FRAGMENTATION_SIZE` bytes
deactivates the block and grows the fragmented counter; otherwise the
block shrinks in place. -/
def adjustFreeBlock (m : Mem) (newOffset newSize : Nat) (block : FreeBlock) : Mem :=
  if newSize ≤ FRAGMENTATION_SIZE then
    let m := FreeBlock.write m block.position block.next 0 0
    setFragmented m (getFragmented m + newSize)
  else FreeBlock.write m block.position block.next newOffset newSize

/-- `solve_allocate`: push the lead pointer, or consume/shrink the free
block; in either case grow `used_space` by the allocation size. -/
def solveAllocate (m : Mem) (a : Allocation) : Except PageError Mem :=
  if a.isLeadAllocation then
    let m := setLeadOffset m (getLeadOffset m + a.size)
    .ok (setUsedSpace m (getUsedSpace m + a.size))
  else
    match a.freeBlock with
    | none => .error .badAllocation
    | some fb =>
      let m :=
        if a.size = fb.size then FreeBlock.write m fb.position fb.next 0 0
        else adjustFreeBlock m (fb.offset + a.size) (fb.size - a.size) fb
      .ok (setUsedSpace m (getUsedSpace m + a.size))

/-- `allocate_free_block`: allocate 6 bytes through the ordinary
allocator, write the fresh block there, solve the allocation and count the
6 bytes as fragmented.  Returns the new block's location. -/
def allocateFreeBlock (m : Mem) (fuel offset size : Nat) :
    Option (Except PageError (Mem × Nat)) :=
  match canAllocate m fuel FreeBlock.byteSize with
  | none => none
  | some none => some (.error .leafPageFull)
  | some (some allocate) =>
    let location := allocate.location
    let m := FreeBlock.write m location 0 offset size
    match solveAllocate m allocate with
    | .error e => some (.error e)
    | .ok m => some (.ok (setFragmented m (getFragmented m + FreeBlock.byteSize), location))

/-- `update_free_chain` (the unused `previous` argument of the source,
which only feeds a debug print, is dropped): reuse an inactive block,
coalesce a left or right edge, append a new block at the chain's end, or
recurse down `next`. -/
def updateFreeChain (m : Mem) : Nat → Nat → Nat → Nat → Option (Except PageError Mem)
  | 0, _, _, _ => none
  | fuel + 1, pointer, start, size =>
    let current := FreeBlock.read m pointer
    let nextPtr := current.next
    if current.offset = 0 then
      some (.ok (FreeBlock.write m pointer nextPtr start size))
    else if start + size = current.offset then
      some (.ok (FreeBlock.write m current.position current.next start (current.size + size)))
    else if current.offset + current.size = start then
      some (.ok (FreeBlock.write m current.position current.next current.offset
        (current.size + size)))
    else if current.next = 0 then
      match allocateFreeBlock m fuel start size with
      | none => none
      | some (.error e) => some (.error e)
      | some (.ok (m2, newBlock)) =>
        some (.ok (FreeBlock.write m2 current.position newBlock current.offset current.size))
    else updateFreeChain m fuel nextPtr start size

/-- `update_free_list`: start a chain when there is none, else walk it. -/
def updateFreeList (m : Mem) (fuel start size : Nat) :
    Option (Except PageError Mem) :=
  let freeListPointer := getFreeBlockPtr m
  if freeListPointer = 0 then
    match allocateFreeBlock m fuel start size with
    | none => none
    | some (.error e) => some (.error e)
    | some (.ok (m2, newPtr)) => some (.ok (setFreePtr m2 newPtr))
  else updateFreeChain m fuel freeListPointer start size

/-- `write_record_offset`. -/
def writeRecordOffset (m : Mem) (offsetIndex recordPtr : Nat) : Mem :=
  writeU16 m (leafHeaderSize + offsetIndex * 2) recordPtr

/-- `write_serialized_record` for a record whose serialized payload is
`data` (so its `total_serialized_size` is
`data.length + required_space(data.length)`): fit check, increment the
cell count, allocate, write the varint length and the payload, append the
cell offset, account the 2 directory bytes and solve the allocation. -/
def writeSerializedRecord (m : Mem) (fuel : Nat) (data : List Nat) :
    Option (Except PageError Mem) :=
  if data.length + leafHeaderSize ≤ getFreeSpace m then
    let newCellCount := getCellCount m + 1
    let m := setCellCount m newCellCount
    match canAllocate m fuel (data.length + requiredSpace data.length) with
    | none => none
    | some none => some (.error .leafPageFull)
    | some (some recordAllocation) =>
      let recordPtr := recordAllocation.location
      let size := leb128 data.length
      let m := writeBytes m recordPtr size
      let m := writeBytes m (recordPtr + size.length) data
      let m := writeRecordOffset m (newCellCount - 1) recordPtr
      let m := setUsedSpace m (getUsedSpace m + 2)
      match solveAllocate m recordAllocation with
      | .error e => some (.error e)
      | .ok m => some (.ok m)
  else some (.error .leafPageFull)

/-- Read the stored varint at `p` directly from memory
(`OvrInteger::read_slice`); returns the value. -/
def readVarintMem (m : Mem) : Nat → Nat → Option Nat
  | 0, _ => none
  | fuel + 1, p =>
    let b := m p
    if b < 128 then some b
    else match readVarintMem m fuel (p + 1) with
      | some v => some (b % 128 + v * 128)
      | none => none

/-- `get_total_record_size`: `required_space(record_size) + record_size`,
or `none` for a deleted slot. -/
def getTotalRecordSize (m : Mem) (fuel record : Nat) : Option Nat :=
  if getOffset m record = 0 then none
  else match readVarintMem m fuel (getOffset m record) with
    | some sz => some (requiredSpace sz + sz)
    | none => none

/-- `simple_delete`: fail on a deleted slot; zero the offset slot and the
record bytes, shrink `used_space` by `record + 2`, decrement the cell
count, rotate the tail of the offset array left by one slot, and insert
`(offset, size)` into the free chain.  (The `unwrap` on the record size,
which cannot fail after the existence check, is modelled as fuel
exhaustion if its varint read runs out.) -/
def simpleDelete (m : Mem) (fuel record : Nat) : Option (Except PageError Mem) :=
  if getOffset m record = 0 then some (.error .noRecordFound)
  else
    let initialCellCount := getCellCount m
    match getTotalRecordSize m fuel record with
    | none => none
    | some size =>
      let offset := getOffset m record
      let indexPtr := 2 * record + leafHeaderSize
      let m := fillZero m indexPtr (indexPtr + 2)
      let m := fillZero m offset (offset + size)
      let m := setUsedSpace m (getUsedSpace m - (2 + size))
      let m := setCellCount m (initialCellCount - 1)
      let m :=
        if 1 < initialCellCount then
          rotateLeft2 m (calculateOffsetIndex record)
            (calculateOffsetIndex (initialCellCount - 1) + 2)
        else m
      updateFreeList m fuel offset size

/-! ### C5: leaf-page accounting -/

/-- The serialized record used in the C5 scenario:
`Option<&Value>::serialize(Some(Integer(32)))` — bytes `[1, 1, 64]`,
total serialized size 4. -/
def c5Record : List Nat := writeOptValue (some (.integer 32))

/-- A fresh leaf body (a new page is zeroed), one record written, then
deleted — the state reached in `test_leaf_space_calculaion`. -/
def c5State : Option Mem :=
  match writeSerializedRecord (fun _ => 0) 9 c5Record with
  | some (.ok m1) =>
    match simpleDelete m1 9 0 with
    | some (.ok m2) => some m2
    | _ => none
  | _ => none

/-- Counterexample to C5 as stated: after writing and then deleting one
record on a fresh leaf page, `used_space = 6` and `fragmented = 6` (the
free-chain head block is counted in both), yet `free_space` is read as
`capacity − header_size − used_space` with no fragmented term, so
`used_space + free_space + fragmented + header_size` evaluates to
`capacity + 6`, not `capacity`. -/
theorem leaf_accounting_C5_counterexample :
    (c5State.map (fun m =>
      getUsedSpace m + getFreeSpace m + getFragmented m + leafHeaderSize)) =
      some (leafCapacity + 6) ∧
    (c5State.map getFragmented) = some 6 ∧ leafCapacity + 6 ≠ leafCapacity := by
  refine ⟨by decide, by decide, by decide⟩

/-- C5 as amended: the `free_space` read from a leaf page is defined as
`capacity − header_size − used_space`, so after any sequence of record
writes and deletes the accounting identity that actually holds is
`used_space + free_space + header_size = capacity`; the fragmented counter
is not subtracted from the free space and enters no such identity (the
stated identity holds exactly when `fragmented = 0`). -/
theorem leaf_accounting_C5 (m : Mem)
    (h : getUsedSpace m ≤ leafCapacity - leafHeaderSize) :
    getUsedSpace m + getFreeSpace m + leafHeaderSize = leafCapacity ∧
    (getFragmented m = 0 →
      getUsedSpace m + getFreeSpace m + getFragmented m + leafHeaderSize =
        leafCapacity) := by
  unfold getFreeSpace leafCapacity leafHeaderSize PAGE_SIZE
    PAGE_HEADER_RESERVED_BYTES at *
  omega

/-- Witness for C5 (amended) on a fresh zeroed leaf body. -/
theorem leaf_accounting_C5_witness :
    getUsedSpace (fun _ => 0) + getFreeSpace (fun _ => 0) + leafHeaderSize =
      leafCapacity ∧
    (getFragmented (fun _ => 0) = 0 →
      getUsedSpace (fun _ => 0) + getFreeSpace (fun _ => 0) +
        getFragmented (fun _ => 0) + leafHeaderSize = leafCapacity) :=
  leaf_accounting_C5 (fun _ => 0) (by decide)

/-! ### C6: the free-chain descent never advances past its head -/

/-- A two-block free chain: the head at body offset 100 has
`next = 200, offset = 50, size = 2`; its successor at 200 has
`next = 0, offset = 300, size = 50`. -/
def c6Mem : Mem :=
  FreeBlock.write (FreeBlock.write (fun _ => 0) 100 200 50 2) 200 0 300 50

/-- C6 is a code bug: `descend_free_chain` recurses with the *same*
`pointer` instead of `block.next`, so whenever the head block does not
satisfy the allocation but has a successor, the search never terminates.
On the chain above, a request of size 10 fails at the head
(`size 2 < 10`), sees `next = 200 ≠ 0` and loops forever — for every
fuel the search is still running — although the very block at 200
(`offset 300 ≠ 0, size 50 ≥ 10`) satisfies the request and descending to
it returns that block at once. -/
theorem descend_free_chain_diverges_C6 :
    (∀ fuel, descendFreeChain c6Mem fuel 100 10 = none) ∧
    (∀ fuel, descendFreeChain c6Mem (fuel + 1) 200 10 =
      some (some ⟨300, some ⟨200, 0, 300, 50⟩, 10, false⟩)) := by
  constructor
  · intro fuel
    induction fuel with
    | zero => rfl
    | succ n ih =>
      rw [show descendFreeChain c6Mem (n + 1) 100 10 =
        descendFreeChain c6Mem n 100 10 from rfl]
      exact ih
  · intro fuel
    rfl

/-! ## The paged file (`overseer-server/src/database/store/file.rs`)

The storage file is a total byte function plus its length.  `open` either
formats a fresh file (writing the reserved header page and the magic
byte) or rebuilds the free list by scanning the first byte of each page;
the only failure paths in the source are I/O errors, which the model
leaves out, so every modelled execution returns `ok`. -/

/-- The errors `open`/`acquire` can surface (`error/network.rs`), beyond
raw I/O. -/
inductive NetworkError
  | pageOutOfBounds
  | pageFreed
  | illegalRead
deriving DecidableEq, Repr

/-- A file on disk: contents and size. -/
structure FileState where
  data : Mem
  size : Nat

/-- In-memory state of an opened `PagedFile`. -/
structure PagedFileState where
  data : Mem
  fileSize : Nat
  isInitialized : Bool
  freeList : List Nat

/-- The file offset of data page `i`
(`RawPageAddress::new(RESERVED_HEADER_SIZE + i * PAGE_SIZE)` in
`open`/`acquire`). -/
def dataPageOffset (i : Nat) : Nat := RESERVED_HEADER_SIZE + i * PAGE_SIZE

/-- `PagedFile::open`.  Empty file: `reserve(0, RESERVED_HEADER_SIZE, 0)`
zeroes the header page and rewrites its free byte through `Page::write` —
which lands at file offset `0 + 0 + PAGE_HEADER_RESERVED_BYTES = 5` —
then `format_pagefile_header` writes `[MAGIC_BYTE, 0, 0, 0]` through the
same `Page::write`, i.e. at file offsets 5..9.  Non-empty file: scan byte
0 of every page and push the free ones; no byte of the header page (in
particular not byte 0 against `MAGIC_BYTE`) is ever inspected. -/
def openPF (f : FileState) : Except NetworkError PagedFileState :=
  if f.size = 0 then
    let fileSize := f.size + RESERVED_HEADER_SIZE
    let d := fillZero f.data 0 RESERVED_HEADER_SIZE
    let d := writeBytes d PAGE_HEADER_RESERVED_BYTES [0]
    let d := writeBytes d PAGE_HEADER_RESERVED_BYTES [MAGIC_BYTE, 0, 0, 0]
    .ok ⟨d, fileSize, true, []⟩
  else
    .ok ⟨f.data, f.size, true,
      (List.range ((f.size - RESERVED_HEADER_SIZE) / PAGE_SIZE)).filterMap
        (fun i => if f.data (dataPageOffset i) = 1 then some (dataPageOffset i)
          else none)⟩

/-- The paged-file state after opening an absent (empty) file. -/
def openedEmpty : PagedFileState :=
  ((openPF ⟨fun _ => 0, 0⟩).toOption).getD ⟨fun _ => 0, 0, false, []⟩

/-! ### C8: layout constants -/

/-- Counterexample to C8 as stated: the source constants are
`PAGE_SIZE = 16384` and `RESERVED_HEADER_SIZE = 512` (not 4096/4096), so
data page `i` sits at `512 + i·16384`; and the formatted header carries
the magic byte `0x83` at file offset 5, with byte 0 equal to 0. -/
theorem page_layout_C8_counterexample :
    PAGE_SIZE ≠ 4096 ∧ RESERVED_HEADER_SIZE ≠ 4096 ∧
    dataPageOffset 1 ≠ 4096 + 1 * 4096 ∧ openedEmpty.data 0 ≠ MAGIC_BYTE := by
  refine ⟨by decide, by decide, by decide, by decide⟩

/-- C8 as amended: the paged file uses a page size of 16384 bytes and a
reserved file header of 512 bytes, so data page `i` occupies the
16384-byte region at file offset `512 + i·16384`; formatting a fresh file
writes the magic byte `0x83` at file offset 5 (`Page::write` adds the
5-byte page-header reservation to every position), leaving byte 0 zero. -/
theorem page_layout_C8 :
    PAGE_SIZE = 16384 ∧ RESERVED_HEADER_SIZE = 512 ∧
    (∀ i, dataPageOffset i = 512 + i * 16384) ∧
    openedEmpty.data 5 = MAGIC_BYTE ∧ openedEmpty.data 0 = 0 := by
  refine ⟨rfl, rfl, fun i => by unfold dataPageOffset RESERVED_HEADER_SIZE PAGE_SIZE; ring,
    by decide, by decide⟩

/-! ### C9: open never checks the magic byte -/

/-- A non-empty file whose byte 0 is 7, not the magic byte. -/
def c9File : FileState := ⟨fun i => if i = 0 then 7 else 0, 512⟩

/-- Counterexample to C9 as stated: opening a non-empty file whose byte 0
differs from `0x83` succeeds — `open` reads no magic byte on the
non-empty path, so nothing is refused. -/
theorem open_ignores_magic_C9_counterexample :
    (openPF c9File).toOption.isSome = true ∧
    c9File.data 0 ≠ MAGIC_BYTE ∧ c9File.size ≠ 0 := by
  refine ⟨by decide, by decide, by decide⟩

/-- C9 as amended: `open(path)` performs no magic-byte validation at all:
for every file of non-zero size (at least the reserved header, which is
the least any file written by the program has), open returns successfully
regardless of byte 0, with the free list rebuilt from the first byte of
each data page. -/
theorem open_no_magic_check_C9 (f : FileState)
    (_hsize : RESERVED_HEADER_SIZE ≤ f.size) (h0 : f.size ≠ 0) :
    openPF f = .ok ⟨f.data, f.size, true,
      (List.range ((f.size - RESERVED_HEADER_SIZE) / PAGE_SIZE)).filterMap
        (fun i => if f.data (dataPageOffset i) = 1 then some (dataPageOffset i)
          else none)⟩ := by
  unfold openPF
  rw [if_neg h0]

/-- Witness for C9 (amended) at the concrete wrong-magic file. -/
theorem open_no_magic_check_C9_witness :
    openPF c9File = .ok ⟨c9File.data, c9File.size, true,
      (List.range ((c9File.size - RESERVED_HEADER_SIZE) / PAGE_SIZE)).filterMap
        (fun i => if c9File.data (dataPageOffset i) = 1 then some (dataPageOffset i)
          else none)⟩ :=
  open_no_magic_check_C9 c9File (by decide) (by decide)

end Overseer
